import Mathlib

/-!
Shallow embedding of `src/platform_impl/linux/wayland/tablet.rs`: the
`Dispatch<ZwpTabletToolV2, ToolData>::event` handler, which reduces the
Wayland tablet-tool protocol event stream into per-tool state and outbound
pointer events.

Modelling choices:
* `f64` values (tilt angles, logical coordinates, scale factors, normalized
  force) are modelled as exact rationals `ℚ`; the raw pressure is a `Nat`
  (the protocol delivers a `u32` in `0..=65535`).
* Wayland surfaces are identified by a `Nat`; `wayland::make_wid` (an
  injective pure map from a surface to its window id, external plumbing) is
  modelled as the identity on those ids.
* `state.windows` (the window table consulted for the scale factor) is an
  association list from window id to scale factor; `window.lock().scale_factor()`
  becomes a lookup in that list.
* The `HashMap<Tool, ToolState>` has a two-element key type, so it is
  modelled as a record with one `Option ToolState` field per key.
* `OnceCell<Tool>` is an `Option Tool`; `get_or_init` keeps an existing
  value and writes the new one only when unset.
* `state.events_sink.push_window_event(ev, wid)` appends to a list; the
  `device_id` argument is the constant `DeviceId::Wayland(DeviceId)` on every
  push, so it is omitted from the sink entry.
* The `unwrap()` calls in `ToolData::state_mut` (tablet state present, tool
  type resolved, tool registered) are modelled by returning `none` (a panic)
  from the dispatch function; `state.tablet` itself is assumed present
  (bound at startup by `TabletState::try_new`), so its interior (`tools`)
  is inlined into the state record.
-/

namespace TabletSpec

/-- Logical tool identity (`crate::event::Tool`), the variants produced in
`tablet.rs`. -/
inductive Tool where
  | pen
  | eraser
deriving DecidableEq

/-- Protocol-level tool type tag (`zwp_tablet_tool_v2::Type`). -/
inductive ToolTypeTag where
  | pen
  | eraser
  | brush
  | pencil
  | airbrush
  | finger
  | mouse
  | lens
deriving DecidableEq

/-- Model of `wayland_client::WEnum`: a decoded enum value or an unrecognized wire
code. -/
inductive WEnum (α : Type) where
  | value (a : α)
  | unknown (code : Nat)
deriving DecidableEq

/-- Model of `crate::event::Tilt` (angles in degrees, `f64` modelled as `ℚ`). -/
structure Tilt where
  angle_x : ℚ
  angle_y : ℚ
deriving DecidableEq

/-- Model of `PhysicalPosition<f64>` over `ℚ`. -/
structure PhysicalPosition where
  x : ℚ
  y : ℚ
deriving DecidableEq

/-- Model of `crate::event::ElementState`. -/
inductive ElementState where
  | pressed
  | released
deriving DecidableEq

/-- Model of `crate::event::PenButton` (only `Touch` is used in `tablet.rs`). -/
inductive PenButton where
  | touch
deriving DecidableEq

/-- Model of `crate::event::PointerButton` (only the `Pen` variant is used). -/
inductive PointerButton where
  | pen (b : PenButton)
deriving DecidableEq

/-- The `PointerEvent` payloads produced by `tablet.rs`. -/
inductive PointerEvent where
  | entered
  | left
  | moved (position : PhysicalPosition) (force : Option ℚ) (tilt : Option Tilt)
  | button (button : PointerButton) (state : ElementState)
      (position : Option PhysicalPosition) (force : Option ℚ) (tilt : Option Tilt)
deriving DecidableEq

/-- One entry pushed to `state.events_sink` by `push_window_event`: a
`WindowEvent::Pointer` (fields `device_id`, `pointer_id`, `event`) plus the
target `window_id`. The `pointer_id` is always `PointerId::Pen` tagged with
the tool, so only the tool is kept; the `device_id` is the same constant on
every push and is omitted. -/
structure SinkEvent where
  tool : Tool
  event : PointerEvent
  window_id : Nat
deriving DecidableEq

/-- Model of `ToolState` from `tablet.rs` (all fields `Default`-initialized). -/
structure ToolState where
  surface : Option Nat := none
  pressure : Option Nat := none
  tilt : Option Tilt := none
  motion : Option PhysicalPosition := none
  down : Bool := false
  up : Bool := false
deriving DecidableEq

/-- Model of the `HashMap<Tool, ToolState>`: the key type has exactly two values, so the
map is a record with one optional entry per key. -/
structure ToolMap where
  pen : Option ToolState := none
  eraser : Option ToolState := none
deriving DecidableEq

/-- Lookup (`HashMap::get`) on the tool map. -/
def ToolMap.get (m : ToolMap) : Tool → Option ToolState
  | Tool.pen => m.pen
  | Tool.eraser => m.eraser

/-- Insertion (`HashMap::insert`) on the tool map (replaces any existing entry). -/
def ToolMap.insert (m : ToolMap) (t : Tool) (ts : ToolState) : ToolMap :=
  match t with
  | Tool.pen => { m with pen := some ts }
  | Tool.eraser => { m with eraser := some ts }

/-- Model of `ToolData`: the per-protocol-handle user data; `tool_type` is the
`OnceCell<Tool>`. -/
structure ToolData where
  tool_type : Option Tool := none
deriving DecidableEq

/-- The slice of `WinitState` that the tablet handler reads and writes:
`state.tablet.tools`, the window table consulted for scale factors, and
the outbound event sink. -/
structure WinitState where
  tools : ToolMap
  windows : List (Nat × ℚ)
  events_sink : List SinkEvent
deriving DecidableEq

/-- Model of `wayland::make_wid`: pure injective surface→window-id map (external
plumbing), modelled as the identity on surface ids. -/
def make_wid (surface : Nat) : Nat := surface

/-- Model of `state.windows.get_mut().get(&window_id)` followed by
`window.lock().unwrap().scale_factor()`: look the window id up in the
window table and return its scale factor, absent when unknown. -/
def findScale : List (Nat × ℚ) → Nat → Option ℚ
  | [], _ => none
  | (wid, sf) :: rest, w => if wid = w then some sf else findScale rest w

/-- Model of `Force::Normalized(pressure as f64 / 65535.0)`. -/
def normalizeForce (pressure : Nat) : ℚ := (pressure : ℚ) / 65535

/-- Model of `LogicalPosition::new(x, y).to_physical(scale_factor)`: multiply both
logical coordinates by the scale factor. -/
def toPhysical (x y scale_factor : ℚ) : PhysicalPosition :=
  { x := x * scale_factor, y := y * scale_factor }

/-- Model of `state.events_sink.push_window_event(.., window_id)`. -/
def pushEvent (st : WinitState) (window_id : Nat) (t : Tool) (e : PointerEvent) :
    WinitState :=
  { st with events_sink := st.events_sink ++ [⟨t, e, window_id⟩] }

/-- The `match ty` in the `Event::Type` arm: recognized tags map to a
`Tool`, anything else makes the handler return. -/
def toolOf : ToolTypeTag → Option Tool
  | ToolTypeTag.pen => some Tool.pen
  | ToolTypeTag.eraser => some Tool.eraser
  | _ => none

/-- The `zwp_tablet_tool_v2` events handled by `tablet.rs` (payload fields
reduced to those the handler reads; `Down`/`Up`/`Frame` payloads are
ignored by the handler). -/
inductive Event where
  | type (tool_type : WEnum ToolTypeTag)
  | pressure (pressure : Nat)
  | tilt (tilt_x tilt_y : ℚ)
  | motion (x y : ℚ)
  | down
  | up
  | proximityIn (surface : Nat)
  | proximityOut
  | frame
deriving DecidableEq

/-- Model of `ToolData::state_mut`: resolve the latched tool type and fetch its
`ToolState`; `none` models the `unwrap()` panics when either is missing. -/
def ToolData.state_mut (data : ToolData) (st : WinitState) :
    Option (Tool × ToolState) :=
  match data.tool_type with
  | none => none
  | some t =>
    match st.tools.get t with
    | none => none
    | some ts => some (t, ts)

/-- The body of `Dispatch<ZwpTabletToolV2, ToolData>::event`, one protocol
event at a time. Returns the updated handle data and state, or `none` for
a panic (an `unwrap()` failure inside `state_mut`). -/
def dispatch (data : ToolData) (st : WinitState) (ev : Event) :
    Option (ToolData × WinitState) :=
  match ev with
  | Event.type wty =>
    match wty with
    | WEnum.unknown _ => some (data, st)
    | WEnum.value ty =>
      match toolOf ty with
      | none => some (data, st)
      | some t =>
        some ({ tool_type := some (data.tool_type.getD t) },
          { st with tools := st.tools.insert t {} })
  | Event.pressure p =>
    match data.state_mut st with
    | none => none
    | some (t, ts) =>
      some (data, { st with tools := st.tools.insert t { ts with pressure := some p } })
  | Event.tilt tx ty =>
    match data.state_mut st with
    | none => none
    | some (t, ts) =>
      let ts' : ToolState := { ts with tilt := some { angle_x := tx, angle_y := ty } }
      some (data, { st with tools := st.tools.insert t ts' })
  | Event.motion x y =>
    match data.state_mut st with
    | none => none
    | some (t, ts) =>
      match ts.surface with
      | none => some (data, st)
      | some surface =>
        let window_id := make_wid surface
        match findScale st.windows window_id with
        | none => some (data, st)
        | some scale_factor =>
          let ts' : ToolState := { ts with motion := some (toPhysical x y scale_factor) }
          some (data, { st with tools := st.tools.insert t ts' })
  | Event.down =>
    match data.state_mut st with
    | none => none
    | some (t, ts) =>
      some (data, { st with tools := st.tools.insert t { ts with down := true } })
  | Event.up =>
    match data.state_mut st with
    | none => none
    | some (t, ts) =>
      some (data, { st with tools := st.tools.insert t { ts with up := true } })
  | Event.proximityIn surface =>
    match data.state_mut st with
    | none => none
    | some (t, ts) =>
      let window_id := make_wid surface
      some (data,
        pushEvent { st with tools := st.tools.insert t { ts with surface := some surface } }
          window_id t PointerEvent.entered)
  | Event.proximityOut =>
    match data.state_mut st with
    | none => none
    | some (t, ts) =>
      match ts.surface with
      | none => some (data, st)
      | some surface =>
        some (data, pushEvent st (make_wid surface) t PointerEvent.left)
  | Event.frame =>
    match data.state_mut st with
    | none => none
    | some (t, ts) =>
      match ts.surface with
      | none => some (data, st)
      | some surface =>
        let window_id := make_wid surface
        let force := ts.pressure.map normalizeForce
        let tilt := ts.tilt
        let down := ts.down
        let up := ts.up
        -- pressure/tilt/down/up were `take`n above; `motion.take()` runs in
        -- both branches below, so the written-back ToolState always has
        -- every pending field cleared and only the surface preserved.
        let cleared : ToolState := { surface := some surface }
        if down || up then
          some (data,
            pushEvent { st with tools := st.tools.insert t cleared } window_id t
              (PointerEvent.button (PointerButton.pen PenButton.touch)
                (if down then ElementState.pressed else ElementState.released)
                ts.motion force tilt))
        else
          match ts.motion with
          | some position =>
            some (data,
              pushEvent { st with tools := st.tools.insert t cleared } window_id t
                (PointerEvent.moved position force tilt))
          | none =>
            some (data, { st with tools := st.tools.insert t cleared })

/-- Process a list of protocol events in order, stopping at a panic. -/
def runEvents (data : ToolData) (st : WinitState) : List Event → Option (ToolData × WinitState)
  | [] => some (data, st)
  | e :: rest =>
    match dispatch data st e with
    | none => none
    | some (data', st') => runEvents data' st' rest

/-- Force carried by an outbound pointer event, when it has one. -/
def eventForce : PointerEvent → Option ℚ
  | PointerEvent.moved _ f _ => f
  | PointerEvent.button _ _ _ f _ => f
  | _ => none

/-- Concrete handle data with the tool type already latched to `pen`. -/
def wData : ToolData := { tool_type := some Tool.pen }

/-- Concrete pen state with every pending field populated and contact down. -/
def tsFull : ToolState :=
  { surface := some 7, pressure := some 100,
    tilt := some { angle_x := 1, angle_y := 2 },
    motion := some { x := 6, y := 8 }, down := true, up := false }

/-- Concrete state: the pen is registered with `tsFull`, window `7` has
scale factor `2`, the sink is empty. -/
def stFull : WinitState :=
  { tools := { pen := some tsFull }, windows := [(7, 2)], events_sink := [] }

/-- Concrete pen state with a pending pressure but no owning surface. -/
def tsNoSurf : ToolState := { pressure := some 100, down := true }

/-- Concrete state: pen registered with `tsNoSurf`, empty window table. -/
def stNoSurf : WinitState :=
  { tools := { pen := some tsNoSurf }, windows := [], events_sink := [] }

/-- Concrete pen state owning surface `9`, which is absent from the window
table of `stUnknownWin`. -/
def tsUnknown : ToolState := { surface := some 9 }

/-- Concrete state: pen registered with `tsUnknown`; surface `9` is not in
the window table. -/
def stUnknownWin : WinitState :=
  { tools := { pen := some tsUnknown }, windows := [(7, 2)], events_sink := [] }

/-- Reading back (`ToolMap.get`) an entry just written by `ToolMap.insert`. -/
theorem ToolMap.get_insert (m : ToolMap) (t : Tool) (ts : ToolState) :
    (m.insert t ts).get t = some ts := by
  cases t <;> rfl

/-- Claim C1: a frame commit on a tool with an owning surface and a pending
contact flag appends exactly one event to the sink — a Button whose state is
Pressed when the down flag is set (down wins when both are set) and Released
otherwise, carrying the pending motion (or absent), the normalized force and
the pending tilt — emits no Moved event, and writes back the tool state with
every pending field cleared. -/
theorem frame_contact_single_button (data : ToolData) (st : WinitState) (t : Tool)
    (ts : ToolState) (s : Nat) (hdata : data.tool_type = some t)
    (hts : st.tools.get t = some ts) (hsurf : ts.surface = some s)
    (hcontact : ts.down = true ∨ ts.up = true) :
    dispatch data st Event.frame = some (data,
      { st with
          tools := st.tools.insert t { surface := some s },
          events_sink := st.events_sink ++
            [⟨t, PointerEvent.button (PointerButton.pen PenButton.touch)
                (if ts.down then ElementState.pressed else ElementState.released)
                ts.motion (ts.pressure.map normalizeForce) ts.tilt, make_wid s⟩] }) := by
  have hdu : (ts.down || ts.up) = true := by
    rcases hcontact with h | h <;> simp [h]
  simp [dispatch, ToolData.state_mut, hdata, hts, hsurf, hdu, pushEvent]

/-- Witness for C1 at a concrete state. -/
theorem frame_contact_single_button_witness :
    dispatch wData stFull Event.frame = some (wData,
      { stFull with
          tools := stFull.tools.insert Tool.pen { surface := some 7 },
          events_sink := stFull.events_sink ++
            [⟨Tool.pen, PointerEvent.button (PointerButton.pen PenButton.touch)
                (if tsFull.down then ElementState.pressed else ElementState.released)
                tsFull.motion (tsFull.pressure.map normalizeForce) tsFull.tilt,
              make_wid 7⟩] }) :=
  frame_contact_single_button wData stFull Tool.pen tsFull 7 rfl rfl rfl (Or.inl rfl)

/-- Claim C5: a frame commit on a tool whose owning surface is unset is
discarded: the handler returns with the state (sink included) unchanged. -/
theorem frame_no_surface_discarded (data : ToolData) (st : WinitState) (t : Tool)
    (ts : ToolState) (hdata : data.tool_type = some t)
    (hts : st.tools.get t = some ts) (hsurf : ts.surface = none) :
    dispatch data st Event.frame = some (data, st) := by
  simp [dispatch, ToolData.state_mut, hdata, hts, hsurf]

/-- Witness for C5 at a concrete state. -/
theorem frame_no_surface_discarded_witness :
    dispatch wData stNoSurf Event.frame = some (wData, stNoSurf) :=
  frame_no_surface_discarded wData stNoSurf Tool.pen tsNoSurf rfl rfl rfl

/-- Claim C8: a proximity-leave on a tool with no recorded owning surface is
a no-op: no event is emitted and no tool's state is altered (the whole state
is returned unchanged). -/
theorem proximity_out_no_surface_noop (data : ToolData) (st : WinitState) (t : Tool)
    (ts : ToolState) (hdata : data.tool_type = some t)
    (hts : st.tools.get t = some ts) (hsurf : ts.surface = none) :
    dispatch data st Event.proximityOut = some (data, st) := by
  simp [dispatch, ToolData.state_mut, hdata, hts, hsurf]

/-- Witness for C8 at a concrete state. -/
theorem proximity_out_no_surface_noop_witness :
    dispatch wData stNoSurf Event.proximityOut = some (wData, stNoSurf) :=
  proximity_out_no_surface_noop wData stNoSurf Tool.pen tsNoSurf rfl rfl rfl

/-- Claim C7: a proximity-leave on a tool with a recorded owning surface
immediately appends a Left event for that surface, and the tool's state —
its owning surface included — is left untouched. -/
theorem proximity_out_emits_left_keeps_surface (data : ToolData) (st : WinitState)
    (t : Tool) (ts : ToolState) (s : Nat) (hdata : data.tool_type = some t)
    (hts : st.tools.get t = some ts) (hsurf : ts.surface = some s) :
    ∃ st', dispatch data st Event.proximityOut = some (data, st') ∧
      st'.events_sink = st.events_sink ++ [⟨t, PointerEvent.left, make_wid s⟩] ∧
      st'.tools.get t = some ts ∧ ts.surface = some s := by
  refine ⟨pushEvent st (make_wid s) t PointerEvent.left, ?_, rfl, hts, hsurf⟩
  simp [dispatch, ToolData.state_mut, hdata, hts, hsurf]

/-- Witness for C7 at a concrete state. -/
theorem proximity_out_emits_left_keeps_surface_witness :
    ∃ st', dispatch wData stFull Event.proximityOut = some (wData, st') ∧
      st'.events_sink = stFull.events_sink ++
        [⟨Tool.pen, PointerEvent.left, make_wid 7⟩] ∧
      st'.tools.get Tool.pen = some tsFull ∧ tsFull.surface = some 7 :=
  proximity_out_emits_left_keeps_surface wData stFull Tool.pen tsFull 7 rfl rfl rfl

/-- Claim C10: a proximity-enter on a tool that already owns a surface
overwrites the owning surface with the new one and appends exactly one
event — an Entered event for the new surface; no Left event is emitted for
the previously owned surface. -/
theorem proximity_in_overwrites_surface (data : ToolData) (st : WinitState)
    (t : Tool) (ts : ToolState) (s0 s1 : Nat) (hdata : data.tool_type = some t)
    (hts : st.tools.get t = some ts) (_hold : ts.surface = some s0) :
    dispatch data st (Event.proximityIn s1) = some (data,
      { st with
          tools := st.tools.insert t { ts with surface := some s1 },
          events_sink := st.events_sink ++ [⟨t, PointerEvent.entered, make_wid s1⟩] }) := by
  simp [dispatch, ToolData.state_mut, hdata, hts, pushEvent]

/-- Shape of a frame reduction when the owning surface is set: the tool
state is written back with every pending field cleared (only the surface
survives), and the sink grows by the Button event when a contact flag was
pending, else by the Moved event when a motion was pending, else by
nothing. -/
theorem dispatch_frame_eq (data : ToolData) (st : WinitState) (t : Tool)
    (ts : ToolState) (s : Nat) (hdata : data.tool_type = some t)
    (hts : st.tools.get t = some ts) (hsurf : ts.surface = some s) :
    dispatch data st Event.frame = some (data,
      { st with
          tools := st.tools.insert t { surface := some s },
          events_sink := st.events_sink ++
            (if ts.down || ts.up then
              [⟨t, PointerEvent.button (PointerButton.pen PenButton.touch)
                  (if ts.down then ElementState.pressed else ElementState.released)
                  ts.motion (ts.pressure.map normalizeForce) ts.tilt, make_wid s⟩]
             else
              match ts.motion with
              | some position =>
                [⟨t, PointerEvent.moved position (ts.pressure.map normalizeForce) ts.tilt,
                  make_wid s⟩]
              | none => []) }) := by
  by_cases hdu : (ts.down || ts.up) = true
  · simp [dispatch, ToolData.state_mut, hdata, hts, hsurf, hdu, pushEvent]
  · rw [Bool.not_eq_true] at hdu
    cases hm : ts.motion with
    | some position =>
      simp [dispatch, ToolData.state_mut, hdata, hts, hsurf, hdu, hm, pushEvent]
    | none =>
      simp [dispatch, ToolData.state_mut, hdata, hts, hsurf, hdu, hm]

/-- A frame reduction on a tool whose state is already fully cleared (only
the surface set) emits nothing and only rewrites the cleared state. -/
theorem dispatch_frame_cleared (data : ToolData) (st : WinitState) (t : Tool)
    (s : Nat) (hdata : data.tool_type = some t)
    (hts : st.tools.get t = some { surface := some s }) :
    dispatch data st Event.frame = some (data,
      { st with tools := st.tools.insert t { surface := some s } }) := by
  simp [dispatch, ToolData.state_mut, hdata, hts]

/-- Witness for C10 at a concrete state. -/
theorem proximity_in_overwrites_surface_witness :
    dispatch wData stFull (Event.proximityIn 11) = some (wData,
      { stFull with
          tools := stFull.tools.insert Tool.pen { tsFull with surface := some 11 },
          events_sink := stFull.events_sink ++
            [⟨Tool.pen, PointerEvent.entered, make_wid 11⟩] }) :=
  proximity_in_overwrites_surface wData stFull Tool.pen tsFull 7 11 rfl rfl rfl

/-- Counterexample to claim C2 as stated: with no owning surface, the frame
reduction returns early and clears nothing — at `stNoSurf` (pending pressure
100, contact-down set, surface unset) the frame commit leaves the state
unchanged, so the pending pressure and the down flag survive the frame. -/
theorem frame_without_surface_keeps_pending_cex :
    dispatch wData stNoSurf Event.frame = some (wData, stNoSurf) ∧
      (stNoSurf.tools.get Tool.pen).map ToolState.pressure = some (some 100) ∧
      (stNoSurf.tools.get Tool.pen).map ToolState.down = some true :=
  ⟨rfl, rfl, rfl⟩

/-- Claim C2 (amended): when the owning surface is set, a frame commit
writes the tool state back with every pending field cleared (pressure,
tilt, motion and both contact flags), whether or not an event was emitted,
and a subsequent frame commit with no intervening updates emits no event.
(Without an owning surface the frame is discarded with the state — pending
fields included — unchanged.) -/
theorem frame_clears_pending_when_surface_set (data : ToolData) (st : WinitState)
    (t : Tool) (ts : ToolState) (s : Nat) (hdata : data.tool_type = some t)
    (hts : st.tools.get t = some ts) (hsurf : ts.surface = some s) :
    ∃ st', dispatch data st Event.frame = some (data, st') ∧
      st'.tools.get t = some { surface := some s } ∧
      ∃ st'', dispatch data st' Event.frame = some (data, st'') ∧
        st''.events_sink = st'.events_sink := by
  refine ⟨_, dispatch_frame_eq data st t ts s hdata hts hsurf,
    ToolMap.get_insert _ _ _, ?_⟩
  exact ⟨_, dispatch_frame_cleared data _ t s hdata (ToolMap.get_insert _ _ _), rfl⟩

/-- Witness for the amended C2 at a concrete state. -/
theorem frame_clears_pending_when_surface_set_witness :
    ∃ st', dispatch wData stFull Event.frame = some (wData, st') ∧
      st'.tools.get Tool.pen = some { surface := some 7 } ∧
      ∃ st'', dispatch wData st' Event.frame = some (wData, st'') ∧
        st''.events_sink = st'.events_sink :=
  frame_clears_pending_when_surface_set wData stFull Tool.pen tsFull 7 rfl rfl rfl

/-- Counterexample to claim C3 as stated: a type notification received after
the identity is already latched is not ignored — it re-registers a default
tool state, here resetting the pen state of `stFull` (owning surface 7) to
the default (surface unset). -/
theorem type_reregisters_state_cex :
    dispatch wData stFull (Event.type (WEnum.value ToolTypeTag.pen)) =
      some (wData, { stFull with tools := stFull.tools.insert Tool.pen {} }) ∧
      (stFull.tools.get Tool.pen).map ToolState.surface = some (some 7) ∧
      ((stFull.tools.insert Tool.pen {}).get Tool.pen).map ToolState.surface =
        some none :=
  ⟨rfl, rfl, rfl⟩

/-- Claim C3 (amended): a type notification carrying a recognized tag
latches the tool identity first-write-wins (an already-latched identity is
never changed), but every recognized notification — first or subsequent —
registers a fresh default tool state under the notification's own tag,
resetting any existing state for that tool. -/
theorem type_latches_identity_reregisters_state (data : ToolData) (st : WinitState)
    (tag : ToolTypeTag) (t : Tool) (htag : toolOf tag = some t) :
    dispatch data st (Event.type (WEnum.value tag)) =
      some ({ tool_type := some (data.tool_type.getD t) },
        { st with tools := st.tools.insert t {} }) := by
  simp [dispatch, htag]

/-- Witness for the amended C3 at a concrete state. -/
theorem type_latches_identity_reregisters_state_witness :
    dispatch wData stFull (Event.type (WEnum.value ToolTypeTag.pen)) =
      some ({ tool_type := some (wData.tool_type.getD Tool.pen) },
        { stFull with tools := stFull.tools.insert Tool.pen {} }) :=
  type_latches_identity_reregisters_state wData stFull ToolTypeTag.pen Tool.pen rfl

/-- Claim C4: when a frame commit emits an event and a raw pressure
`r ≤ 65535` was pending, the emitted event carries force `r / 65535`, which
lies in `[0, 1]`; `r = 0` maps to `0` and `r = 65535` maps to `1`. -/
theorem frame_force_normalized (data : ToolData) (st : WinitState) (t : Tool)
    (ts : ToolState) (s : Nat) (r : Nat) (hdata : data.tool_type = some t)
    (hts : st.tools.get t = some ts) (hsurf : ts.surface = some s)
    (hp : ts.pressure = some r) (hr : r ≤ 65535)
    (hemit : ts.down = true ∨ ts.up = true ∨ ts.motion.isSome = true) :
    ∃ st' e, dispatch data st Event.frame = some (data, st') ∧
      st'.events_sink = st.events_sink ++ [e] ∧
      eventForce e.event = some (normalizeForce r) ∧
      normalizeForce r = (r : ℚ) / 65535 ∧
      0 ≤ normalizeForce r ∧ normalizeForce r ≤ 1 ∧
      normalizeForce 0 = 0 ∧ normalizeForce 65535 = 1 := by
  have hle : normalizeForce r ≤ 1 := by
    rw [normalizeForce, div_le_one (by norm_num : (0:ℚ) < 65535)]
    exact_mod_cast hr
  have hge : 0 ≤ normalizeForce r :=
    div_nonneg (Nat.cast_nonneg r) (by norm_num)
  have h0 : normalizeForce 0 = 0 := by simp [normalizeForce]
  have h1 : normalizeForce 65535 = 1 := by norm_num [normalizeForce]
  have heq := dispatch_frame_eq data st t ts s hdata hts hsurf
  by_cases hdu : (ts.down || ts.up) = true
  · refine ⟨_, ⟨t, PointerEvent.button (PointerButton.pen PenButton.touch)
        (if ts.down then ElementState.pressed else ElementState.released)
        ts.motion (ts.pressure.map normalizeForce) ts.tilt, make_wid s⟩,
      heq, ?_, ?_, rfl, hge, hle, h0, h1⟩
    · simp [hdu]
    · simp [eventForce, hp]
  · have hmv : ts.motion.isSome = true := by
      rcases hemit with h | h | h
      · exact absurd (by simp [h] : (ts.down || ts.up) = true) hdu
      · exact absurd (by simp [h] : (ts.down || ts.up) = true) hdu
      · exact h
    obtain ⟨pos, hm⟩ := Option.isSome_iff_exists.mp hmv
    rw [Bool.not_eq_true] at hdu
    refine ⟨_, ⟨t, PointerEvent.moved pos (ts.pressure.map normalizeForce) ts.tilt,
        make_wid s⟩, heq, ?_, ?_, rfl, hge, hle, h0, h1⟩
    · simp [hdu, hm]
    · simp [eventForce, hp]

/-- Witness for C4 at a concrete state. -/
theorem frame_force_normalized_witness :
    ∃ st' e, dispatch wData stFull Event.frame = some (wData, st') ∧
      st'.events_sink = stFull.events_sink ++ [e] ∧
      eventForce e.event = some (normalizeForce 100) ∧
      normalizeForce 100 = (100 : ℚ) / 65535 ∧
      0 ≤ normalizeForce 100 ∧ normalizeForce 100 ≤ 1 ∧
      normalizeForce 0 = 0 ∧ normalizeForce 65535 = 1 :=
  frame_force_normalized wData stFull Tool.pen tsFull 7 100 rfl rfl rfl rfl
    (by norm_num) (Or.inl rfl)

/-- Claim C6: a motion update on a tool with no owning surface, or whose
owning surface has no entry in the window table, is dropped: the handler
returns the state unchanged (no panic, no event, pending motion untouched),
so processing any later event sequence from here is identical to processing
it without the dropped motion — its position can never surface in a later
Moved or Button event. -/
theorem motion_dropped_without_scale (data : ToolData) (st : WinitState) (t : Tool)
    (ts : ToolState) (x y : ℚ) (hdata : data.tool_type = some t)
    (hts : st.tools.get t = some ts)
    (hdrop : ts.surface = none ∨
      ∃ s, ts.surface = some s ∧ findScale st.windows (make_wid s) = none) :
    dispatch data st (Event.motion x y) = some (data, st) ∧
      ∀ rest, runEvents data st (Event.motion x y :: rest) = runEvents data st rest := by
  have h1 : dispatch data st (Event.motion x y) = some (data, st) := by
    rcases hdrop with h | ⟨s, hs, hsc⟩
    · simp [dispatch, ToolData.state_mut, hdata, hts, h]
    · simp [dispatch, ToolData.state_mut, hdata, hts, hs, hsc]
  exact ⟨h1, fun rest => by simp [runEvents, h1]⟩

/-- Witness for C6 at a concrete state (owning surface set to `9`, which is
unknown to the window table). -/
theorem motion_dropped_without_scale_witness :
    dispatch wData stUnknownWin (Event.motion 3 4) = some (wData, stUnknownWin) ∧
      ∀ rest, runEvents wData stUnknownWin (Event.motion 3 4 :: rest) =
        runEvents wData stUnknownWin rest :=
  motion_dropped_without_scale wData stUnknownWin Tool.pen tsUnknown 3 4 rfl rfl
    (Or.inr ⟨9, rfl, rfl⟩)

/-- Claim C9: with an owning surface recorded and a motion pending, a
proximity-leave followed by a frame commit (no intervening enter) still
emits a Moved or Button event targeted at the previously-left surface:
the leave clears neither the owning surface nor the pending fields. -/
theorem leave_then_frame_still_emits (data : ToolData) (st : WinitState) (t : Tool)
    (ts : ToolState) (s : Nat) (pos : PhysicalPosition) (hdata : data.tool_type = some t)
    (hts : st.tools.get t = some ts) (hsurf : ts.surface = some s)
    (hm : ts.motion = some pos) :
    ∃ st', runEvents data st [Event.proximityOut, Event.frame] = some (data, st') ∧
      st'.events_sink = st.events_sink ++ [⟨t, PointerEvent.left, make_wid s⟩] ++
        [if ts.down || ts.up then
           ⟨t, PointerEvent.button (PointerButton.pen PenButton.touch)
             (if ts.down then ElementState.pressed else ElementState.released)
             (some pos) (ts.pressure.map normalizeForce) ts.tilt, make_wid s⟩
         else ⟨t, PointerEvent.moved pos (ts.pressure.map normalizeForce) ts.tilt,
           make_wid s⟩] := by
  have h1 : dispatch data st Event.proximityOut =
      some (data, pushEvent st (make_wid s) t PointerEvent.left) := by
    simp [dispatch, ToolData.state_mut, hdata, hts, hsurf]
  have hts1 : (pushEvent st (make_wid s) t PointerEvent.left).tools.get t = some ts := hts
  have h2 := dispatch_frame_eq data (pushEvent st (make_wid s) t PointerEvent.left)
    t ts s hdata hts1 hsurf
  refine ⟨{ tools := st.tools.insert t { surface := some s },
            windows := st.windows,
            events_sink := (st.events_sink ++ [⟨t, PointerEvent.left, make_wid s⟩]) ++
              (if ts.down || ts.up then
                [⟨t, PointerEvent.button (PointerButton.pen PenButton.touch)
                    (if ts.down then ElementState.pressed else ElementState.released)
                    ts.motion (ts.pressure.map normalizeForce) ts.tilt, make_wid s⟩]
               else
                match ts.motion with
                | some position =>
                  [⟨t, PointerEvent.moved position (ts.pressure.map normalizeForce) ts.tilt,
                    make_wid s⟩]
                | none => []) }, ?_, ?_⟩
  · simp only [runEvents, h1, h2]
    simp [pushEvent]
  · by_cases hdu : (ts.down || ts.up) = true
    · simp [hdu, hm, List.append_assoc]
    · rw [Bool.not_eq_true] at hdu
      simp [hdu, hm, List.append_assoc]

/-- Witness for C9 at a concrete state. -/
theorem leave_then_frame_still_emits_witness :
    ∃ st', runEvents wData stFull [Event.proximityOut, Event.frame] = some (wData, st') ∧
      st'.events_sink = stFull.events_sink ++
        [⟨Tool.pen, PointerEvent.left, make_wid 7⟩] ++
        [if tsFull.down || tsFull.up then
           ⟨Tool.pen, PointerEvent.button (PointerButton.pen PenButton.touch)
             (if tsFull.down then ElementState.pressed else ElementState.released)
             (some { x := 6, y := 8 }) (tsFull.pressure.map normalizeForce) tsFull.tilt,
             make_wid 7⟩
         else ⟨Tool.pen, PointerEvent.moved { x := 6, y := 8 }
           (tsFull.pressure.map normalizeForce) tsFull.tilt, make_wid 7⟩] :=
  leave_then_frame_still_emits wData stFull Tool.pen tsFull 7 { x := 6, y := 8 }
    rfl rfl rfl rfl

end TabletSpec
